import Mathlib

/-!
Verification of the driftfm mood-radio core: a shallow embedding of the
playlist engine (`internal/radio`), the response cache (`internal/cache`),
the inventory repository and the play-report HTTP handler, together with
theorems settling the specification's testable properties.

Conventions of the embedding:
* Go `int64` / `int` become `Int` (overflow is irrelevant at the sizes here).
* `time.Time` becomes `Nat` (an abstract instant); `time.Duration` a `Nat`.
* Go's `rand.Intn (n)` is modelled by `rng step % n` for an arbitrary
  entropy function `rng : Nat → Nat`: every value strictly below `n` is
  realizable at each call, exactly Intn's contract.
* SQL state is explicit: the database is a record of tables; a transaction
  is a pending copy of that record, committed or discarded.
* Fallible repository calls return `Except Unit`; injected faults model
  I/O failures of the underlying SQLite driver.
-/

/-- Embeds `inventory.Track` (internal/inventory/track.go), keeping the
fields the core reads. -/
structure Track where
  ID : Int
  FilePath : String
  AudioURL : String := ""
  Title : Option String := none
  Artist : Option String := none
  Mood : String
  Energy : String := ""
  HasVocals : Bool := false
  Intensity : Option Int := none
  Lyrics : Option String := none
  Status : String := "approved"
  PlayCount : Int := 0
  deriving DecidableEq, Repr

/-- Embeds `inventory.ListenEvent` (internal/inventory/track.go). -/
structure ListenEvent where
  TrackID : Int
  Mood : String
  EventType : String
  ListenSeconds : Int
  PlaylistPosition : Option Int
  deriving DecidableEq, Repr

/-- Listen event type constant `inventory.EventPlay`. -/
def EventPlay : String := "play"

/-- Listen event type constant `inventory.EventSkip`. -/
def EventSkip : String := "skip"

/-- Listen event type constant `inventory.EventComplete`. -/
def EventComplete : String := "complete"

/-- `DefaultMaxRecent` (internal/radio/radio.go): size bound of the
recency window. -/
def DefaultMaxRecent : Nat := 3

/-- The swap of positions `i` and `j` performed by one Fisher–Yates step
(`nonRecent[i], nonRecent[j] = nonRecent[j], nonRecent[i]` in
`shuffleWithRecencyLocked`); identity when an index is out of range,
which never happens in the loop's use. -/
def swapL (l : List Track) (i j : Nat) : List Track :=
  match l[i]?, l[j]? with
  | some a, some b => (l.set i b).set j a
  | _, _ => l

/-- The Fisher–Yates loop of `shuffleWithRecencyLocked`
(internal/radio/radio.go lines 80–83): `for i := len-1; i > 0; i--`,
swapping `i` with `j := rng.Intn(i+1)`.  `rng k` is the raw entropy
consumed by the call made at loop index `k`. -/
def fyLoop (rng : Nat → Nat) : Nat → List Track → List Track
  | 0, l => l
  | Nat.succ k, l => fyLoop rng k (swapL l (k + 1) (rng (k + 1) % (k + 2)))

/-- The whole Fisher–Yates shuffle applied to the `nonRecent` partition. -/
def fisherYates (rng : Nat → Nat) (l : List Track) : List Track :=
  fyLoop rng (l.length - 1) l

/-- Embeds `Radio.shuffleWithRecencyLocked` (internal/radio/radio.go):
partition by membership of the track ID in the recency window (the Go
code materializes the window as a set, which agrees with list
membership), Fisher–Yates-shuffle the non-recent part, and rebuild the
slice as shuffled non-recent followed by recent in store order. -/
def shuffleWithRecency (rng : Nat → Nat) (recentlyPlayed : List Int)
    (tracks : List Track) : List Track :=
  let nonRecent := tracks.filter (fun t => !(recentlyPlayed.contains t.ID))
  let recent := tracks.filter (fun t => recentlyPlayed.contains t.ID)
  fisherYates rng nonRecent ++ recent

/-- Embeds the successful path of `Radio.GetPlaylist`
(internal/radio/radio.go lines 38–57): `tracks` is the list returned by
`repo.GetByMood`; an empty list is returned as is, otherwise a copy is
shuffled with recency awareness. -/
def GetPlaylist (rng : Nat → Nat) (recentlyPlayed : List Int)
    (tracks : List Track) : List Track :=
  if tracks.isEmpty then tracks
  else shuffleWithRecency rng recentlyPlayed tracks

/-- Embeds `Radio.RecordPlay` (internal/radio/radio.go lines 98–115):
no-op when the ID is already in the window, otherwise append and drop
the front entry when the bound is exceeded. -/
def RecordPlay (maxRecent : Nat) (recentlyPlayed : List Int)
    (trackID : Int) : List Int :=
  if trackID ∈ recentlyPlayed then recentlyPlayed
  else
    let rp := recentlyPlayed ++ [trackID]
    if rp.length > maxRecent then rp.drop 1 else rp

/-- Go's `strings.HasPrefix`, evaluated on the underlying character
lists. -/
def hasPrefixStr (pre s : String) : Bool := pre.data.isPrefixOf s.data

/-- Cache key `cache.KeyMoodsList` (internal/cache/cache.go). -/
def KeyMoodsList : String := "moods:list"

/-- `cache.PlaylistKey` (internal/cache/cache.go): `playlist:{mood}`. -/
def PlaylistKey (mood : String) : String := "playlist:" ++ mood

/-- `cache.DefaultTTL` (internal/cache/cache.go), in seconds. -/
def DefaultTTL : Nat := 300

/-- One stored cache `entry` (internal/cache/cache.go): opaque value and
absolute expiry instant. -/
structure CEntry (V : Type) where
  value : V
  expiresAt : Nat
  deriving DecidableEq, Repr

/-- Embeds the `Cache` struct (internal/cache/cache.go): the keyed item
map (modelled as an association list with unique keys, matching Go map
semantics through the lookup/store/delete operations below) plus the
hit and miss counters. -/
structure Cache (V : Type) where
  items : List (String × CEntry V)
  hits : Nat := 0
  misses : Nat := 0
  deriving DecidableEq, Repr

/-- Go map read `c.items[key]`. -/
def lookupItem {V : Type} (items : List (String × CEntry V))
    (key : String) : Option (CEntry V) :=
  (items.find? (fun p => p.1 == key)).map Prod.snd

/-- Go map write `c.items[key] = e`: any previous binding for the key is
replaced. -/
def setItem {V : Type} (items : List (String × CEntry V)) (key : String)
    (e : CEntry V) : List (String × CEntry V) :=
  (key, e) :: items.filter (fun p => !(p.1 == key))

/-- `Cache.Get` (internal/cache/cache.go lines 75–85): a miss on absence
or when `now` is strictly after the expiry (`time.Now().After`), a hit
otherwise; the matching counter is bumped. -/
def Cache.get {V : Type} (c : Cache V) (now : Nat) (key : String) :
    Option V × Cache V :=
  match lookupItem c.items key with
  | none => (none, { c with misses := c.misses + 1 })
  | some e =>
    if now > e.expiresAt then (none, { c with misses := c.misses + 1 })
    else (some e.value, { c with hits := c.hits + 1 })

/-- `Cache.Set` (internal/cache/cache.go lines 88–93): store with the
default TTL. -/
def Cache.set {V : Type} (c : Cache V) (now : Nat) (key : String)
    (v : V) : Cache V :=
  { c with items := setItem c.items key ⟨v, now + DefaultTTL⟩ }

/-- `Cache.InvalidateMoods` (internal/cache/cache.go lines 122–131):
delete the moods-list key and every key under the `playlist:`
namespace. -/
def Cache.invalidateMoods {V : Type} (c : Cache V) : Cache V :=
  { c with items := c.items.filter (fun p =>
      !(p.1 == KeyMoodsList) && !(hasPrefixStr "playlist:" p.1)) }

/-- Embeds `api.PlaylistTrack` (the slim playlist payload). -/
structure PlaylistTrack where
  ID : Int
  FilePath : String
  AudioURL : String
  Title : Option String
  Artist : Option String
  Energy : String
  Intensity : Option Int
  Lyrics : Option String
  deriving DecidableEq, Repr

/-- `api.toPlaylistTracks`. -/
def toPlaylistTracks (tracks : List Track) : List PlaylistTrack :=
  tracks.map (fun t =>
    ⟨t.ID, t.FilePath, t.AudioURL, t.Title, t.Artist, t.Energy,
      t.Intensity, t.Lyrics⟩)

/-- `api.validMoods`: the known mood identifiers. -/
def validMoods (mood : String) : Bool :=
  mood == "focus" || mood == "calm" || mood == "late_night"
    || mood == "energize"

/-- The playlist cache key built by `Handler.getPlaylist`: the mood key,
with an `:instrumental` suffix for the instrumental-only slot. -/
def playlistCacheKey (mood : String) (instrumentalOnly : Bool) : String :=
  PlaylistKey mood ++ (if instrumentalOnly then ":instrumental" else "")

/-- Responses of the playlist endpoints, abstracted from HTTP. -/
inductive PlaylistResp where
  | ok (tracks : List PlaylistTrack)
  | notFound
  | internalError
  deriving DecidableEq, Repr

/-- Embeds `Handler.getPlaylist` (the api package): cache lookup, radio
fetch on a miss (`storeResult` is what `radio.GetPlaylist` returned),
audio-URL resolution, slim conversion, and caching of non-empty
playlists only. -/
def handlerGetPlaylist (c : Cache (List PlaylistTrack)) (now : Nat)
    (resolver : String → String) (storeResult : Except Unit (List Track))
    (mood : String) (instrumentalOnly : Bool) :
    Cache (List PlaylistTrack) × PlaylistResp :=
  let key := playlistCacheKey mood instrumentalOnly
  match c.get now key with
  | (some v, c1) => (c1, .ok v)
  | (none, c1) =>
    match storeResult with
    | .error _ => (c1, .internalError)
    | .ok tracks =>
      let resolved := tracks.map
        (fun t => { t with AudioURL := resolver t.FilePath })
      let slim := toPlaylistTracks resolved
      if slim.length > 0 then (c1.set now key slim, .ok slim)
      else (c1, .ok slim)

/-- Embeds `Handler.handleMoods` (the api package): the mood segment is
validated against `validMoods` (404 otherwise) before the playlist
path runs. -/
def handleMoods (c : Cache (List PlaylistTrack)) (now : Nat)
    (resolver : String → String) (storeResult : Except Unit (List Track))
    (mood : String) (instrumentalOnly : Bool) :
    Cache (List PlaylistTrack) × PlaylistResp :=
  if validMoods mood then
    handlerGetPlaylist c now resolver storeResult mood instrumentalOnly
  else (c, .notFound)

/-- One `play_stats` row: cumulative play count and nullable
last-played instant. -/
structure PlayStat where
  playCount : Int
  lastPlayedAt : Option Nat
  deriving DecidableEq, Repr

/-- The durable SQLite state the play-report path touches: the `tracks`
table, the `play_stats` table keyed by file path, and the append-only
`listen_events` table. -/
structure DBState where
  tracks : List Track
  play_stats : List (String × PlayStat)
  listen_events : List ListenEvent
  deriving DecidableEq, Repr

/-- `Repository.GetByID` (success case): the track with the given ID, or
none when no row matches. -/
def getTrack (db : DBState) (trackID : Int) : Option Track :=
  db.tracks.find? (fun t => t.ID == trackID)

/-- The `INSERT ... ON CONFLICT(file_path) DO UPDATE` upsert of
`Repository.UpdatePlayStatsTx`: increment `play_count` and refresh
`last_played_at` for an existing row, else create the row with count 1. -/
def upsertPlayStat (stats : List (String × PlayStat)) (path : String)
    (now : Nat) : List (String × PlayStat) :=
  if stats.any (fun p => p.1 == path) then
    stats.map (fun p =>
      if p.1 == path then (p.1, ⟨p.2.playCount + 1, some now⟩) else p)
  else stats ++ [(path, ⟨1, some now⟩)]

/-- `Repository.UpdatePlayStatsTx` applied to a transaction's pending
state: the `INSERT ... SELECT ... FROM tracks WHERE id = ?` affects zero
rows when the track ID does not exist, which the Go code reports as an
error. -/
def UpdatePlayStatsTx (db : DBState) (now : Nat) (trackID : Int) :
    Except Unit DBState :=
  match getTrack db trackID with
  | none => .error ()
  | some t =>
    .ok { db with play_stats := upsertPlayStat db.play_stats t.FilePath now }

/-- `Repository.RecordListenEventTx` applied to a transaction's pending
state: append one row to `listen_events`. -/
def RecordListenEventTx (db : DBState) (evt : ListenEvent) : DBState :=
  { db with listen_events := db.listen_events ++ [evt] }

/-- Injected storage faults, one per fallible repository call of the
play-report path. -/
structure Inj where
  getByIDFails : Bool := false
  beginTxFails : Bool := false
  updateFails : Bool := false
  recordFails : Bool := false
  commitFails : Bool := false
  deriving DecidableEq, Repr

/-- No injected faults. -/
def noFail : Inj := {}

/-- Process state the play-report handler touches besides the database:
the Manager's mood→recency-window map and the process-wide plays
counter (`metrics.Get().RecordPlay()`). -/
structure SysState where
  db : DBState
  radios : List (String × List Int)
  playsCounter : Nat
  deriving DecidableEq, Repr

/-- `Manager.RecordPlay` (internal/radio/manager.go): resolve (or lazily
create, with an empty window) the mood's radio and apply
`Radio.RecordPlay` with the default window bound. -/
def managerRecordPlay (radios : List (String × List Int)) (mood : String)
    (trackID : Int) : List (String × List Int) :=
  let w := ((radios.find? (fun p => p.1 == mood)).map Prod.snd).getD []
  let w2 := RecordPlay DefaultMaxRecent w trackID
  if radios.any (fun p => p.1 == mood) then
    radios.map (fun p => if p.1 == mood then (p.1, w2) else p)
  else radios ++ [(mood, w2)]

/-- Responses of the play-report endpoint, abstracted from HTTP. -/
inductive PlayResp where
  | ok
  | badRequest
  | internalError
  deriving DecidableEq, Repr

/-- The Go zero value of `inventory.ListenEvent`, the state of `evt`
when the body is absent or `json.Unmarshal` rejects it (Go's Unmarshal
validates the whole input before writing any field, so a syntax error
leaves the target untouched). -/
def zeroListenEvent : ListenEvent := ⟨0, "", "", 0, none⟩

/-- `api.validEventTypes`. -/
def validEventTypes (t : String) : Bool :=
  t == EventPlay || t == EventSkip || t == EventComplete

/-- Body decoding and defaulting of `Handler.recordPlay` (lines
280–295): `body = none` models an absent or unparseable body; the
track ID from the URL overrides the body's, and an empty event kind
defaults to `play`. -/
def fillEvent (body : Option ListenEvent) (trackID : Int) : ListenEvent :=
  let evt := body.getD zeroListenEvent
  let evt1 := { evt with TrackID := trackID }
  if evt1.EventType == "" then { evt1 with EventType := EventPlay }
  else evt1

/-- Mood resolution of `Handler.recordPlay` (lines 303–311): fill the
event's mood from the catalog row when the caller omitted it. -/
def resolveMood (evt : ListenEvent) (track : Option Track) : ListenEvent :=
  match track with
  | some t => if evt.Mood == "" then { evt with Mood := t.Mood } else evt
  | none => evt

/-- Embeds `Handler.recordPlay` (the api package, lines 280–358):
validate the event kind, resolve the mood, run both durable writes in
one transaction (pending state committed only at the end, discarded on
any failure), and only after a successful commit bump the plays counter
and the recency window — the latter two for non-skip events only. -/
def handlerRecordPlay (inj : Inj) (st : SysState) (now : Nat)
    (trackID : Int) (body : Option ListenEvent) : SysState × PlayResp :=
  let evt0 := fillEvent body trackID
  if !(validEventTypes evt0.EventType) then (st, .badRequest)
  else
    let track := if inj.getByIDFails then none else getTrack st.db trackID
    let evt := resolveMood evt0 track
    if inj.beginTxFails then (st, .internalError)
    else
      let step1 : Except Unit DBState :=
        if evt.EventType != EventSkip then
          if inj.updateFails then .error ()
          else UpdatePlayStatsTx st.db now trackID
        else .ok st.db
      match step1 with
      | .error _ => (st, .internalError)
      | .ok pending1 =>
        let step2 : Except Unit DBState :=
          if evt.Mood != "" then
            if inj.recordFails then .error ()
            else .ok (RecordListenEventTx pending1 evt)
          else .ok pending1
        match step2 with
        | .error _ => (st, .internalError)
        | .ok pending2 =>
          if inj.commitFails then (st, .internalError)
          else
            let st1 : SysState := { st with db := pending2 }
            if evt.EventType != EventSkip then
              let st2 : SysState :=
                { st1 with playsCounter := st1.playsCounter + 1 }
              match track with
              | some t =>
                ({ st2 with
                    radios := managerRecordPlay st2.radios t.Mood trackID },
                  .ok)
              | none => (st2, .ok)
            else (st1, .ok)

/-- A tiny concrete catalog used by witnesses. -/
def wTracks : List Track :=
  [{ ID := 1, FilePath := "a.mp3", Mood := "focus" },
   { ID := 2, FilePath := "b.mp3", Mood := "focus" },
   { ID := 3, FilePath := "c.mp3", Mood := "focus" }]

/-- A concrete system state used by witnesses: one focus track, no
play stats, no listen events, no radios. -/
def wState : SysState :=
  ⟨⟨[{ ID := 1, FilePath := "focus/t1.mp3", Mood := "focus" }], [], []⟩,
    [], 0⟩

/-- A play report carrying a negative `listen_seconds`, as a direct API
caller may send (`{"event":"play","listen_seconds":-5}`). -/
def c9Event : ListenEvent := ⟨0, "", EventPlay, -5, none⟩

/-- The slim payload `handlerGetPlaylist` produces for `wTracks` under
the witness resolver. -/
def wSlim : List PlaylistTrack :=
  [⟨1, "a.mp3", "/audio/a.mp3", none, none, "", none, none⟩,
   ⟨2, "b.mp3", "/audio/b.mp3", none, none, "", none, none⟩,
   ⟨3, "c.mp3", "/audio/c.mp3", none, none, "", none, none⟩]

section ShuffleLemmas

lemma count_set_of_getElem? {l : List Track} {i : Nat} {a : Track}
    (b x : Track) (h : l[i]? = some a) :
    (l.set i b).count x + (if a = x then 1 else 0)
      = l.count x + (if b = x then 1 else 0) := by
  induction l generalizing i with
  | nil => simp at h
  | cons c t ih =>
    cases i with
    | zero =>
      simp only [List.getElem?_cons_zero, Option.some.injEq] at h
      subst h
      simp [List.count_cons, List.set]
      split <;> split <;> simp_all <;> omega
    | succ k =>
      simp only [List.getElem?_cons_succ] at h
      have := ih (i := k) h
      simp [List.count_cons, List.set]
      split <;> omega

lemma swapL_perm (l : List Track) (i j : Nat) : (swapL l i j).Perm l := by
  cases hi : l[i]? with
  | none => simp [swapL, hi]
  | some a =>
    cases hj : l[j]? with
    | none => simp [swapL, hi, hj]
    | some b =>
      have hswap : swapL l i j = (l.set i b).set j a := by
        simp [swapL, hi, hj]
      have hij : (l.set i b)[j]? = some b := by
        by_cases hji : j = i
        · subst hji
          have hlt : j < l.length := (List.getElem?_eq_some_iff.mp hj).1
          simp [List.getElem?_set_self, hlt]
        · rw [List.getElem?_set_ne (by omega)]
          exact hj
      rw [hswap, List.perm_iff_count]
      intro x
      have h1 := count_set_of_getElem? (l := l) (i := i) b x hi
      have h2 := count_set_of_getElem? (l := l.set i b) (i := j) a x hij
      omega

lemma fyLoop_perm (rng : Nat → Nat) (i : Nat) (l : List Track) :
    (fyLoop rng i l).Perm l := by
  induction i generalizing l with
  | zero => exact List.Perm.refl l
  | succ k ih =>
    exact (ih _).trans (swapL_perm l (k + 1) (rng (k + 1) % (k + 2)))

lemma fisherYates_perm (rng : Nat → Nat) (l : List Track) :
    (fisherYates rng l).Perm l :=
  fyLoop_perm rng (l.length - 1) l

lemma shuffleWithRecency_perm (rng : Nat → Nat) (recent : List Int)
    (tracks : List Track) :
    (shuffleWithRecency rng recent tracks).Perm tracks := by
  unfold shuffleWithRecency
  refine ((fisherYates_perm rng _).append_right _).trans ?_
  have h := List.filter_append_perm
    (fun t => !(recent.contains t.ID)) tracks
  simpa [Bool.not_not] using h

end ShuffleLemmas

/-- C1: for every non-empty eligible track list returned by the store,
`GetPlaylist` returns a permutation of it — exactly the same track IDs,
with the same multiplicities, so no duplicates and no omissions. -/
theorem getPlaylist_perm (rng : Nat → Nat) (recent : List Int)
    (tracks : List Track) (h : tracks ≠ []) :
    ((GetPlaylist rng recent tracks).map Track.ID).Perm
      (tracks.map Track.ID) := by
  unfold GetPlaylist
  split
  · exact List.Perm.refl _
  · exact (shuffleWithRecency_perm rng recent tracks).map Track.ID

theorem getPlaylist_perm_witness :
    wTracks ≠ [] ∧
    ((GetPlaylist (fun _ => 1) [2] wTracks).map Track.ID).Perm
      (wTracks.map Track.ID) :=
  ⟨by decide, getPlaylist_perm (fun _ => 1) [2] wTracks (by decide)⟩

/-- C2: with a non-empty recency window and at least one eligible track
outside it, every in-window track is placed strictly after every
non-window track — the playlist is some arrangement of the non-window
tracks followed by exactly the in-window tracks in the store's original
order (they are not reshuffled). -/
theorem getPlaylist_recency_tail (rng : Nat → Nat) (recent : List Int)
    (tracks : List Track) (hw : recent ≠ [])
    (hnr : ∃ t ∈ tracks, recent.contains t.ID = false) :
    ∃ pre,
      GetPlaylist rng recent tracks
          = pre ++ tracks.filter (fun t => recent.contains t.ID)
        ∧ (∀ t ∈ pre, recent.contains t.ID = false)
        ∧ pre.Perm (tracks.filter (fun t => !(recent.contains t.ID))) := by
  obtain ⟨t0, ht0, _⟩ := hnr
  have hne : tracks.isEmpty = false := by
    cases tracks
    · simp at ht0
    · simp
  refine ⟨fisherYates rng (tracks.filter (fun t => !(recent.contains t.ID))),
    ?_, ?_, ?_⟩
  · simp [GetPlaylist, hne, shuffleWithRecency]
  · intro t ht
    have hmem := (fisherYates_perm rng _).mem_iff.mp ht
    have := (List.mem_filter.mp hmem).2
    simpa using this
  · exact fisherYates_perm rng _

theorem getPlaylist_recency_tail_witness :
    ([2] : List Int) ≠ [] ∧
    (∃ t ∈ wTracks, ([2] : List Int).contains t.ID = false) ∧
    (∃ pre,
      GetPlaylist (fun _ => 1) [2] wTracks
          = pre ++ wTracks.filter (fun t => ([2] : List Int).contains t.ID)
        ∧ (∀ t ∈ pre, ([2] : List Int).contains t.ID = false)
        ∧ pre.Perm
            (wTracks.filter (fun t => !(([2] : List Int).contains t.ID)))) :=
  ⟨by decide, by decide,
    getPlaylist_recency_tail (fun _ => 1) [2] wTracks (by decide) (by decide)⟩

section WindowLemmas

lemma recordPlay_length_le (N : Nat) (w : List Int) (a : Int)
    (h : w.length ≤ N) : (RecordPlay N w a).length ≤ N := by
  unfold RecordPlay
  split
  · exact h
  · dsimp only
    split <;> simp_all <;> omega

lemma recordPlay_mem_noop (N : Nat) (w : List Int) (a : Int)
    (h : a ∈ w) : RecordPlay N w a = w := by
  unfold RecordPlay
  simp [h]

lemma foldl_recordPlay_drop (N : Nat) (ids : List Int) (h : ids.Nodup) :
    List.foldl (RecordPlay N) [] ids = ids.drop (ids.length - N) := by
  induction ids using List.reverseRecOn with
  | nil => simp
  | append_singleton l a ih =>
    have hnd : l.Nodup := (List.nodup_append.mp h).1
    have ha : a ∉ l := by
      have hd := (List.nodup_append.mp h).2.2
      intro hmem
      exact hd hmem (List.mem_singleton.mpr rfl)
    rw [List.foldl_append, List.foldl_cons, List.foldl_nil, ih hnd]
    have haw : a ∉ l.drop (l.length - N) := fun hm => ha (List.drop_subset _ l hm)
    have hwlen : (l.drop (l.length - N)).length = l.length - (l.length - N) :=
      List.length_drop _ _
    have hlen2 : (l ++ [a]).length = l.length + 1 := by simp
    rw [RecordPlay, if_neg haw]
    by_cases hLN : l.length < N
    · rw [if_neg (by
        simp only [List.length_append, List.length_cons, List.length_nil,
          hwlen]
        omega)]
      have h0 : l.length - N = 0 := by omega
      have h0' : (l ++ [a]).length - N = 0 := by rw [hlen2]; omega
      rw [h0, List.drop_zero, h0', List.drop_zero]
    · rw [if_pos (by
        simp only [List.length_append, List.length_cons, List.length_nil,
          hwlen]
        omega)]
      by_cases hN0 : N = 0
      · subst hN0
        have hd1 : l.drop (l.length - 0) = [] :=
          List.drop_eq_nil_of_le (by omega)
        have hd2 : (l ++ [a]).drop ((l ++ [a]).length - 0) = [] :=
          List.drop_eq_nil_of_le (by omega)
        rw [hd1, hd2]
        rfl
      · have hsplit : (l.drop (l.length - N) ++ [a]).drop 1
            = (l.drop (l.length - N)).drop 1 ++ [a] :=
          List.drop_append_of_le_length (by omega)
        have harith : l.length - N + 1 = (l ++ [a]).length - N := by
          rw [hlen2]; omega
        rw [hsplit, List.drop_drop, harith,
          List.drop_append_of_le_length (by rw [hlen2]; omega)]

end WindowLemmas

/-- C5: starting from an empty window of size `N`, `N + 1` plays of
pairwise-distinct IDs leave the window holding exactly the `N` most
recently added IDs in insertion order (the first-added ID is evicted);
one `RecordPlay` step never grows a window beyond `N` entries; and a
`RecordPlay` of an ID already present leaves the window unchanged. -/
theorem recordPlay_window (N : Nat) (ids : List Int) (w : List Int)
    (a b : Int) (h1 : ids.length = N + 1) (h2 : ids.Nodup)
    (h3 : w.length ≤ N) (h4 : b ∈ w) :
    List.foldl (RecordPlay N) [] ids = ids.drop 1
      ∧ (RecordPlay N w a).length ≤ N
      ∧ RecordPlay N w b = w := by
  refine ⟨?_, recordPlay_length_le N w a h3, recordPlay_mem_noop N w b h4⟩
  rw [foldl_recordPlay_drop N ids h2, h1]
  simp

theorem recordPlay_window_witness :
    ([10, 20, 30, 40] : List Int).length = 3 + 1
      ∧ ([10, 20, 30, 40] : List Int).Nodup
      ∧ ([7, 8] : List Int).length ≤ 3
      ∧ (8 : Int) ∈ [7, 8]
      ∧ (List.foldl (RecordPlay 3) [] [10, 20, 30, 40] = [20, 30, 40]
          ∧ (RecordPlay 3 [7, 8] 9).length ≤ 3
          ∧ RecordPlay 3 [7, 8] 8 = [7, 8]) :=
  ⟨by decide, by decide, by decide, by decide,
    recordPlay_window 3 [10, 20, 30, 40] [7, 8] 9 8
      (by decide) (by decide) (by decide) (by decide)⟩

section CacheLemmas

lemma lookupItem_filter_key {V : Type} (items : List (String × CEntry V))
    (key : String) (qk : String → Bool) :
    lookupItem (items.filter (fun p => qk p.1)) key
      = if qk key then lookupItem items key else none := by
  induction items with
  | nil => simp [lookupItem]
  | cons hd tl ih =>
    by_cases hk : hd.1 = key
    · subst hk
      by_cases hq : qk hd.1
      · simp [lookupItem, List.filter, hq, List.find?]
      · simp only [List.filter, hq, Bool.false_eq_true, if_false]
        rw [ih]
        simp [hq, lookupItem]
    · have hbk : (hd.1 == key) = false := by simp [hk]
      by_cases hq : qk hd.1
      · simp only [List.filter, hq, if_true]
        simp only [lookupItem, List.find?, hbk] at ih ⊢
        exact ih
      · simp only [List.filter, hq, Bool.false_eq_true, if_false]
        rw [ih]
        simp [lookupItem, List.find?, hbk]

lemma lookupItem_setItem_self {V : Type} (items : List (String × CEntry V))
    (key : String) (e : CEntry V) :
    lookupItem (setItem items key e) key = some e := by
  simp [lookupItem, setItem, List.find?]

lemma lookupItem_setItem_ne {V : Type} (items : List (String × CEntry V))
    (key k : String) (e : CEntry V) (h : k ≠ key) :
    lookupItem (setItem items key e) k = lookupItem items k := by
  have hbk : (key == k) = false := by
    simp only [beq_eq_false_iff_ne, ne_eq]
    exact fun he => h he.symm
  simp only [lookupItem, setItem, List.find?, hbk]
  have := lookupItem_filter_key items k (fun s => !(s == key))
  simp only [lookupItem] at this
  rw [this]
  simp [h]

lemma get_items_eq {V : Type} (c : Cache V) (now : Nat) (key : String) :
    ((c.get now key).2).items = c.items := by
  unfold Cache.get
  cases lookupItem c.items key with
  | none => rfl
  | some e =>
    dsimp only
    split <;> rfl

end CacheLemmas

/-- C6: after `InvalidateMoods`, a `Get` of the moods-list key misses,
a `Get` of any `playlist:`-prefixed key (the instrumental variants
included) misses, and a `Get` of an unrelated, unexpired key set before
the invalidation still hits with its stored value. -/
theorem invalidateMoods_cache {V : Type} (c : Cache V) (now now2 : Nat)
    (pk uk : String) (v : V)
    (hpk : hasPrefixStr "playlist:" pk = true)
    (hum : uk ≠ KeyMoodsList)
    (hup : hasPrefixStr "playlist:" uk = false)
    (hfresh : now2 ≤ now + DefaultTTL) :
    ((Cache.invalidateMoods c).get now2 KeyMoodsList).1 = none
    ∧ ((Cache.invalidateMoods c).get now2 pk).1 = none
    ∧ (((c.set now uk v).invalidateMoods).get now2 uk).1 = some v := by
  have hfil := fun (items : List (String × CEntry V)) (key : String) =>
    lookupItem_filter_key items key
      (fun s => !(s == KeyMoodsList) && !(hasPrefixStr "playlist:" s))
  refine ⟨?_, ?_, ?_⟩
  · unfold Cache.invalidateMoods Cache.get
    rw [hfil]
    simp
  · unfold Cache.invalidateMoods Cache.get
    rw [hfil]
    simp [hpk]
  · unfold Cache.invalidateMoods Cache.set Cache.get
    rw [hfil]
    simp only [hum, hup, beq_iff_eq, Bool.not_eq_true', if_pos, Bool.and_eq_true,
      Bool.not_eq_false]
    rw [if_pos (by simp [hum, hup])]
    rw [lookupItem_setItem_self]
    simp only []
    rw [if_neg (by omega)]

theorem invalidateMoods_cache_witness :
    hasPrefixStr "playlist:" "playlist:focus:instrumental" = true
    ∧ "other" ≠ KeyMoodsList
    ∧ hasPrefixStr "playlist:" "other" = false
    ∧ (100 : Nat) ≤ 0 + DefaultTTL
    ∧ (((Cache.invalidateMoods
          (⟨[], 0, 0⟩ : Cache (List PlaylistTrack))).get 100
            KeyMoodsList).1 = none
      ∧ ((Cache.invalidateMoods
          (⟨[], 0, 0⟩ : Cache (List PlaylistTrack))).get 100
            "playlist:focus:instrumental").1 = none
      ∧ ((((⟨[], 0, 0⟩ : Cache (List PlaylistTrack)).set 0 "other"
            wSlim).invalidateMoods).get 100 "other").1 = some wSlim) :=
  ⟨by decide, by decide, by decide, by decide,
    invalidateMoods_cache (⟨[], 0, 0⟩ : Cache (List PlaylistTrack)) 0 100
      "playlist:focus:instrumental" "other" wSlim
      (by decide) (by decide) (by decide) (by decide)⟩

/-- C7: for a well-formed mood (one of the known mood identifiers) whose
catalog query yields no eligible tracks — an unknown-to-the-catalog or
empty mood — the playlist endpoint answers with an empty list, not an
error. -/
theorem handleMoods_empty_ok (c : Cache (List PlaylistTrack)) (now : Nat)
    (resolver : String → String) (mood : String) (instr : Bool)
    (rng : Nat → Nat) (recent : List Int)
    (hm : validMoods mood = true)
    (hmiss : (c.get now (playlistCacheKey mood instr)).1 = none) :
    GetPlaylist rng recent [] = []
    ∧ (handleMoods c now resolver (.ok []) mood instr).2 = .ok [] := by
  refine ⟨rfl, ?_⟩
  cases hg : c.get now (playlistCacheKey mood instr) with
  | mk o c1 =>
    have ho : o = none := by rw [hg] at hmiss; exact hmiss
    subst ho
    simp [handleMoods, handlerGetPlaylist, hm, hg, toPlaylistTracks]

theorem handleMoods_empty_ok_witness :
    validMoods "late_night" = true
    ∧ ((⟨[], 0, 0⟩ : Cache (List PlaylistTrack)).get 0
        (playlistCacheKey "late_night" false)).1 = none
    ∧ (GetPlaylist (fun _ => 1) [2] [] = []
      ∧ (handleMoods ⟨[], 0, 0⟩ 0 (fun p => "/audio/" ++ p) (.ok [])
          "late_night" false).2 = .ok []) :=
  ⟨by decide, by decide,
    handleMoods_empty_ok ⟨[], 0, 0⟩ 0 (fun p => "/audio/" ++ p)
      "late_night" false (fun _ => 1) [2] (by decide) (by decide)⟩

/-- C10: a playlist request whose computed playlist is empty leaves the
cache's entry map untouched (no entry is created for the key), and any
entry the handler does store holds a non-empty playlist — empty
playlists are never cached. -/
theorem handlerGetPlaylist_cache (c : Cache (List PlaylistTrack))
    (now : Nat) (resolver : String → String) (mood : String) (instr : Bool)
    (tracks : List Track) (k : String) (e : CEntry (List PlaylistTrack))
    (h : lookupItem
        ((handlerGetPlaylist c now resolver (.ok tracks) mood instr).1).items
        k = some e) :
    ((handlerGetPlaylist c now resolver (.ok []) mood instr).1).items
        = c.items
    ∧ (lookupItem c.items k = some e
        ∨ e.value ≠ ([] : List PlaylistTrack)) := by
  cases hg : c.get now (playlistCacheKey mood instr) with
  | mk o c1 =>
    have hc1 : c1.items = c.items := by
      have hh := get_items_eq c now (playlistCacheKey mood instr)
      rw [hg] at hh
      exact hh
    constructor
    · cases o with
      | some v => simp [handlerGetPlaylist, hg, hc1]
      | none => simp [handlerGetPlaylist, hg, toPlaylistTracks, hc1]
    · cases o with
      | some v =>
        simp only [handlerGetPlaylist, hg] at h
        rw [hc1] at h
        exact Or.inl h
      | none =>
        simp only [handlerGetPlaylist, hg] at h
        by_cases hlen :
            (toPlaylistTracks (tracks.map
              (fun t => { t with AudioURL := resolver t.FilePath }))).length
            > 0
        · rw [if_pos hlen] at h
          simp only [Cache.set] at h
          by_cases hk : k = playlistCacheKey mood instr
          · subst hk
            rw [lookupItem_setItem_self] at h
            refine Or.inr ?_
            have hev : e.value = toPlaylistTracks (tracks.map
                (fun t => { t with AudioURL := resolver t.FilePath })) := by
              rw [← Option.some.inj h]
            rw [hev]
            intro hnil
            rw [hnil] at hlen
            simp at hlen
          · rw [lookupItem_setItem_ne _ _ _ _ hk] at h
            rw [hc1] at h
            exact Or.inl h
        · rw [if_neg hlen] at h
          rw [hc1] at h
          exact Or.inl h

theorem handlerGetPlaylist_cache_witness :
    lookupItem ((handlerGetPlaylist ⟨[], 0, 0⟩ 0 (fun p => "/audio/" ++ p)
          (.ok wTracks) "focus" false).1).items "playlist:focus"
        = some ⟨wSlim, 300⟩
    ∧ (((handlerGetPlaylist ⟨[], 0, 0⟩ 0 (fun p => "/audio/" ++ p)
          (.ok []) "focus" false).1).items
        = (⟨[], 0, 0⟩ : Cache (List PlaylistTrack)).items
      ∧ (lookupItem (⟨[], 0, 0⟩ : Cache (List PlaylistTrack)).items
            "playlist:focus" = some ⟨wSlim, 300⟩
          ∨ (⟨wSlim, 300⟩ : CEntry (List PlaylistTrack)).value
              ≠ ([] : List PlaylistTrack))) :=
  ⟨by decide,
    handlerGetPlaylist_cache ⟨[], 0, 0⟩ 0 (fun p => "/audio/" ++ p)
      "focus" false wTracks "playlist:focus" ⟨wSlim, 300⟩ (by decide)⟩

section HandlerLemmas

lemma resolveMood_eventType (evt : ListenEvent) (track : Option Track) :
    (resolveMood evt track).EventType = evt.EventType := by
  cases track with
  | none => rfl
  | some t =>
    simp only [resolveMood]
    split <;> rfl

lemma resolveMood_listenSeconds (evt : ListenEvent) (track : Option Track) :
    (resolveMood evt track).ListenSeconds = evt.ListenSeconds := by
  cases track with
  | none => rfl
  | some t =>
    simp only [resolveMood]
    split <;> rfl

lemma fillEvent_listenSeconds (body : Option ListenEvent) (trackID : Int) :
    (fillEvent body trackID).ListenSeconds
      = (body.getD zeroListenEvent).ListenSeconds := by
  simp only [fillEvent]
  split <;> rfl

lemma updatePlayStatsTx_listen_events {db : DBState} {now : Nat}
    {trackID : Int} {db2 : DBState}
    (h : UpdatePlayStatsTx db now trackID = .ok db2) :
    db2.listen_events = db.listen_events := by
  unfold UpdatePlayStatsTx at h
  cases hg : getTrack db trackID with
  | none => rw [hg] at h; cases h
  | some t =>
    rw [hg] at h
    cases h
    rfl

end HandlerLemmas

/-- C3: when `recordListenEventTx` fails after `updatePlayStatsTx`
succeeded inside the same transaction, the whole transaction is rolled
back — the durable state (and all in-memory state) is exactly the
pre-request state — and the request fails with an internal error. -/
theorem recordPlay_atomic_rollback (inj : Inj) (st : SysState) (now : Nat)
    (trackID : Int) (body : Option ListenEvent) (tr : Track)
    (hb : inj.beginTxFails = false)
    (hw : inj.updateFails = true
      ∨ (inj.updateFails = false ∧ inj.recordFails = true))
    (hvalid : validEventTypes (fillEvent body trackID).EventType = true)
    (hskip : (fillEvent body trackID).EventType ≠ EventSkip)
    (htr : getTrack st.db trackID = some tr)
    (hmood : (resolveMood (fillEvent body trackID)
        (if inj.getByIDFails then none else getTrack st.db trackID)).Mood
        ≠ "") :
    handlerRecordPlay inj st now trackID body = (st, .internalError) := by
  have hskip2 : (resolveMood (fillEvent body trackID)
      (if inj.getByIDFails then none else some tr)).EventType
      ≠ EventSkip := by
    rw [resolveMood_eventType]
    exact hskip
  have hmood2 : (resolveMood (fillEvent body trackID)
      (if inj.getByIDFails then none else some tr)).Mood ≠ "" := by
    rw [← htr]
    exact hmood
  rcases hw with hu | ⟨hu, hr⟩
  · simp [handlerRecordPlay, hvalid, hb, hu, htr, hskip2, hmood2]
  · simp [handlerRecordPlay, hvalid, hb, hu, hr, htr,
      UpdatePlayStatsTx, hskip2, hmood2]

theorem recordPlay_atomic_rollback_witness :
    (⟨false, false, false, true, false⟩ : Inj).beginTxFails = false
    ∧ ((⟨false, false, false, true, false⟩ : Inj).updateFails = true
        ∨ ((⟨false, false, false, true, false⟩ : Inj).updateFails = false
          ∧ (⟨false, false, false, true, false⟩ : Inj).recordFails = true))
    ∧ validEventTypes
        (fillEvent (some ⟨0, "", EventPlay, 10, none⟩) 1).EventType = true
    ∧ (fillEvent (some ⟨0, "", EventPlay, 10, none⟩) 1).EventType
        ≠ EventSkip
    ∧ getTrack wState.db 1
        = some { ID := 1, FilePath := "focus/t1.mp3", Mood := "focus" }
    ∧ (resolveMood (fillEvent (some ⟨0, "", EventPlay, 10, none⟩) 1)
        (if (⟨false, false, false, true, false⟩ : Inj).getByIDFails then none
          else getTrack wState.db 1)).Mood ≠ ""
    ∧ handlerRecordPlay ⟨false, false, false, true, false⟩ wState 0 1
        (some ⟨0, "", EventPlay, 10, none⟩) = (wState, .internalError) :=
  ⟨by decide, by decide, by decide, by decide, by decide, by decide,
    recordPlay_atomic_rollback ⟨false, false, false, true, false⟩ wState 0 1
      (some ⟨0, "", EventPlay, 10, none⟩)
      { ID := 1, FilePath := "focus/t1.mp3", Mood := "focus" }
      (by decide) (by decide) (by decide) (by decide) (by decide)
      (by decide)⟩

/-- C4: a "skip" report never changes `play_stats`, never touches any
recency window, and never bumps the process-wide plays counter; it
inserts exactly one `listen_events` row when a mood is known (from the
caller or the catalog) and none otherwise, and the request succeeds. -/
theorem recordPlay_skip_frame (inj : Inj) (st : SysState) (now : Nat)
    (trackID : Int) (body : Option ListenEvent)
    (hskip : (fillEvent body trackID).EventType = EventSkip)
    (hb : inj.beginTxFails = false)
    (hr : inj.recordFails = false)
    (hc : inj.commitFails = false) :
    (handlerRecordPlay inj st now trackID body).1.db.play_stats
        = st.db.play_stats
    ∧ (handlerRecordPlay inj st now trackID body).1.radios = st.radios
    ∧ (handlerRecordPlay inj st now trackID body).1.playsCounter
        = st.playsCounter
    ∧ ((resolveMood (fillEvent body trackID)
          (if inj.getByIDFails then none else getTrack st.db trackID)).Mood
          ≠ "" →
        (handlerRecordPlay inj st now trackID body).1.db.listen_events
          = st.db.listen_events
            ++ [resolveMood (fillEvent body trackID)
                (if inj.getByIDFails then none else getTrack st.db trackID)])
    ∧ ((resolveMood (fillEvent body trackID)
          (if inj.getByIDFails then none else getTrack st.db trackID)).Mood
          = "" →
        (handlerRecordPlay inj st now trackID body).1.db.listen_events
          = st.db.listen_events)
    ∧ (handlerRecordPlay inj st now trackID body).2 = .ok := by
  have hvalid : validEventTypes (fillEvent body trackID).EventType = true := by
    rw [hskip]
    decide
  have hET : (resolveMood (fillEvent body trackID)
      (if inj.getByIDFails then none else getTrack st.db trackID)).EventType
      = EventSkip := by
    rw [resolveMood_eventType]
    exact hskip
  by_cases hM : (resolveMood (fillEvent body trackID)
      (if inj.getByIDFails then none else getTrack st.db trackID)).Mood = ""
  · simp [handlerRecordPlay, hvalid, hb, hr, hc, hET, hM,
      RecordListenEventTx]
  · simp [handlerRecordPlay, hvalid, hb, hr, hc, hET, hM,
      RecordListenEventTx]

theorem recordPlay_skip_frame_witness :
    (fillEvent (some ⟨0, "focus", EventSkip, 45, none⟩) 1).EventType
        = EventSkip
    ∧ noFail.beginTxFails = false
    ∧ noFail.recordFails = false
    ∧ noFail.commitFails = false
    ∧ ((handlerRecordPlay noFail wState 0 1
          (some ⟨0, "focus", EventSkip, 45, none⟩)).1.db.play_stats
        = wState.db.play_stats
      ∧ (handlerRecordPlay noFail wState 0 1
          (some ⟨0, "focus", EventSkip, 45, none⟩)).1.radios = wState.radios
      ∧ (handlerRecordPlay noFail wState 0 1
          (some ⟨0, "focus", EventSkip, 45, none⟩)).1.playsCounter
        = wState.playsCounter
      ∧ ((resolveMood (fillEvent (some ⟨0, "focus", EventSkip, 45, none⟩) 1)
            (if noFail.getByIDFails then none else getTrack wState.db 1)).Mood
            ≠ "" →
          (handlerRecordPlay noFail wState 0 1
            (some ⟨0, "focus", EventSkip, 45, none⟩)).1.db.listen_events
            = wState.db.listen_events
              ++ [resolveMood
                  (fillEvent (some ⟨0, "focus", EventSkip, 45, none⟩) 1)
                  (if noFail.getByIDFails then none
                    else getTrack wState.db 1)])
      ∧ ((resolveMood (fillEvent (some ⟨0, "focus", EventSkip, 45, none⟩) 1)
            (if noFail.getByIDFails then none else getTrack wState.db 1)).Mood
            = "" →
          (handlerRecordPlay noFail wState 0 1
            (some ⟨0, "focus", EventSkip, 45, none⟩)).1.db.listen_events
            = wState.db.listen_events)
      ∧ (handlerRecordPlay noFail wState 0 1
          (some ⟨0, "focus", EventSkip, 45, none⟩)).2 = .ok) :=
  ⟨by decide, by decide, by decide, by decide,
    recordPlay_skip_frame noFail wState 0 1
      (some ⟨0, "focus", EventSkip, 45, none⟩)
      (by decide) (by decide) (by decide) (by decide)⟩

/-- C8: an absent or unparseable body is processed as an implicit "play"
event with zero listened-seconds: the handler fills the defaults,
succeeds, and records the play-zero listen event (when the track's
catalog mood is known) instead of rejecting the request. -/
theorem recordPlay_malformed_body (st : SysState) (now : Nat)
    (trackID : Int) (tr : Track)
    (htr : getTrack st.db trackID = some tr)
    (hm : tr.Mood ≠ "") :
    fillEvent none trackID = ⟨trackID, "", EventPlay, 0, none⟩
    ∧ (handlerRecordPlay noFail st now trackID none).2 = .ok
    ∧ (handlerRecordPlay noFail st now trackID none).1.db.listen_events
        = st.db.listen_events ++ [⟨trackID, tr.Mood, EventPlay, 0, none⟩] := by
  have h1 : fillEvent none trackID = ⟨trackID, "", EventPlay, 0, none⟩ := rfl
  have hv : validEventTypes (fillEvent none trackID).EventType = true := by
    rw [h1]
    rfl
  have h2 : resolveMood (fillEvent none trackID) (some tr)
      = ⟨trackID, tr.Mood, EventPlay, 0, none⟩ := by
    rw [h1]
    simp [resolveMood]
  have hps : EventPlay ≠ EventSkip := by decide
  refine ⟨h1, ?_, ?_⟩ <;>
    simp [handlerRecordPlay, noFail, hv, htr, h2, hm, hps,
      UpdatePlayStatsTx, RecordListenEventTx]

theorem recordPlay_malformed_body_witness :
    getTrack wState.db 1
        = some { ID := 1, FilePath := "focus/t1.mp3", Mood := "focus" }
    ∧ ({ ID := 1, FilePath := "focus/t1.mp3", Mood := "focus" } : Track).Mood
        ≠ ""
    ∧ (fillEvent none 1 = ⟨1, "", EventPlay, 0, none⟩
      ∧ (handlerRecordPlay noFail wState 0 1 none).2 = .ok
      ∧ (handlerRecordPlay noFail wState 0 1 none).1.db.listen_events
          = wState.db.listen_events ++ [⟨1, "focus", EventPlay, 0, none⟩]) :=
  ⟨by decide, by decide,
    recordPlay_malformed_body wState 0 1
      { ID := 1, FilePath := "focus/t1.mp3", Mood := "focus" }
      (by decide) (by decide)⟩

/-- C9 counterexample: a play report carrying `listen_seconds = -5` is
stored verbatim — the durable `listen_events` row holds a negative
value, so the claimed server-side clamping does not exist. -/
theorem listenSeconds_negative_stored :
    (handlerRecordPlay noFail wState 0 1 (some c9Event)).1.db.listen_events
        = [⟨1, "focus", EventPlay, -5, none⟩]
    ∧ ¬ (∀ e ∈ (handlerRecordPlay noFail wState 0 1
            (some c9Event)).1.db.listen_events, 0 ≤ e.ListenSeconds) := by
  constructor
  · decide
  · decide

/-- C9 as amended: the handler stores the caller-supplied
`listen_seconds` unchanged — every listen-event row a play report adds
carries exactly the value from the request body (no clamping; the
non-negativity in production comes from the web client, which clamps
before sending). -/
theorem listenSeconds_stored_unclamped (inj : Inj) (st : SysState)
    (now : Nat) (trackID : Int) (body : Option ListenEvent)
    (e : ListenEvent)
    (h : e ∈ (handlerRecordPlay inj st now trackID
        body).1.db.listen_events) :
    e ∈ st.db.listen_events
    ∨ e.ListenSeconds = (body.getD zeroListenEvent).ListenSeconds := by
  have hls : (resolveMood (fillEvent body trackID)
      (if inj.getByIDFails then none
        else getTrack st.db trackID)).ListenSeconds
      = (body.getD zeroListenEvent).ListenSeconds := by
    rw [resolveMood_listenSeconds, fillEvent_listenSeconds]
  simp only [handlerRecordPlay] at h
  split at h
  · exact Or.inl h
  · split at h
    · exact Or.inl h
    · split at h
      · exact Or.inl h
      · rename_i pending1 heq1
        have hp1 : pending1.listen_events = st.db.listen_events := by
          by_cases hET : ((resolveMood (fillEvent body trackID)
              (if inj.getByIDFails then none
                else getTrack st.db trackID)).EventType != EventSkip)
              = true
          · rw [if_pos hET] at heq1
            by_cases hup : inj.updateFails = true
            · rw [if_pos hup] at heq1
              cases heq1
            · rw [if_neg hup] at heq1
              exact updatePlayStatsTx_listen_events heq1
          · rw [if_neg hET] at heq1
            injection heq1 with hh
            rw [← hh]
        split at h
        · exact Or.inl h
        · rename_i pending2 heq2
          have hp2 : pending2.listen_events = st.db.listen_events
              ∨ pending2.listen_events
                = st.db.listen_events
                  ++ [resolveMood (fillEvent body trackID)
                      (if inj.getByIDFails then none
                        else getTrack st.db trackID)] := by
            by_cases hM : ((resolveMood (fillEvent body trackID)
                (if inj.getByIDFails then none
                  else getTrack st.db trackID)).Mood != "") = true
            · rw [if_pos hM] at heq2
              by_cases hrf : inj.recordFails = true
              · rw [if_pos hrf] at heq2
                cases heq2
              · rw [if_neg hrf] at heq2
                injection heq2 with hh
                right
                rw [← hh]
                simp [RecordListenEventTx, hp1]
            · rw [if_neg hM] at heq2
              injection heq2 with hh
              left
              rw [← hh]
              exact hp1
          split at h
          · exact Or.inl h
          · have hmem : e ∈ pending2.listen_events := by
              repeat' split at h
              all_goals exact h
            rcases hp2 with h2 | h2
            · rw [h2] at hmem
              exact Or.inl hmem
            · rw [h2] at hmem
              rcases List.mem_append.mp hmem with h3 | h3
              · exact Or.inl h3
              · right
                rw [List.mem_singleton.mp h3]
                exact hls

theorem listenSeconds_stored_unclamped_witness :
    (⟨1, "focus", EventPlay, -5, none⟩ : ListenEvent)
        ∈ (handlerRecordPlay noFail wState 0 1
            (some c9Event)).1.db.listen_events
    ∧ ((⟨1, "focus", EventPlay, -5, none⟩ : ListenEvent)
          ∈ wState.db.listen_events
        ∨ (⟨1, "focus", EventPlay, -5, none⟩ : ListenEvent).ListenSeconds
          = ((some c9Event).getD zeroListenEvent).ListenSeconds) :=
  ⟨by decide,
    listenSeconds_stored_unclamped noFail wState 0 1 (some c9Event)
      ⟨1, "focus", EventPlay, -5, none⟩ (by decide)⟩
